import Mathlib

/-!
# engine/rpc.go: the JSON-RPC gateway of kraken

A shallow embedding of `src/engine/rpc.go`: the `Call` envelope and its
decoding, the `Render` helpers, the dispatching `handle`, the handlers
installed by `registerHandlers`, and the `handleCORS` middleware.

Conventions of the embedding.

* Values that travel through Go's `interface{}` are trees of type `Value`;
  a `map[string]...` is the list of its bindings, written through `Object.set`
  (a Go map assignment), and read through `Object.get`.
* An `error` is `Option String`: `none` is `nil`, `some m` is an error whose
  `Error()` is `m`.
* The router (`impl.router`) is stateful and lives outside `rpc.go`; its four
  methods are parameters, threaded through a state of arbitrary type `σ`.
* A `http.ResponseWriter` is the record of what has been done to it: the
  header map, the status of the first `WriteHeader`, the documents written.
-/

namespace Kraken

/-! ## Values, maps, headers -/

/-- Go values behind `interface{}`, as `encoding/json` produces and consumes
them: a value stands for the JSON document the encoder writes for it, so a
nil pointer, slice or map is `null`. `number` carries the literal text (the
decoder runs with `UseNumber`, so a number is a `json.Number`, never a float). -/
inductive Value where
  | null
  | bool (b : Bool)
  | number (lit : String)
  | string (s : String)
  | array (xs : List Value)
  | object (kvs : List (String × Value))

/-- A `map[string]interface{}`: its bindings. -/
abbrev Object := List (String × Value)

/-- Reading `m[k]` with the comma-ok form. -/
def Object.get (m : Object) (k : String) : Option Value :=
  match m with
  | [] => none
  | (k', v) :: rest => if k' = k then some v else Object.get rest k

/-- Whether the key `k` is present in the map. -/
def Object.has (m : Object) (k : String) : Bool :=
  (Object.get m k).isSome

/-- The assignment `m[k] = v`: replaces the binding of `k`, or adds one. -/
def Object.set (m : Object) (k : String) (v : Value) : Object :=
  match m with
  | [] => [(k, v)]
  | (k', v') :: rest => if k' = k then (k, v) :: rest else (k', v') :: Object.set rest k v

/-- A Go `[]string`: `none` is the nil slice, `some xs` a non-nil slice with
the elements `xs` (possibly none). -/
abbrev StringSlice := Option (List String)

/-- The Go value `[]string` as a `Value`: the encoder writes a nil slice as
`null` and a non-nil slice as the array of its strings, in order. -/
def Value.strings (ps : StringSlice) : Value :=
  match ps with
  | none => Value.null
  | some xs => Value.array (xs.map Value.string)

/-- A `http.Header`: canonical key to the list of its values. Every key that
`rpc.go` names is already in canonical MIME form, and `net/http` stores the
request's keys in that form, so keys are compared as they are. -/
abbrev Header := List (String × List String)

/-- All values of a key (`Header.Values`). -/
def Header.Values (h : Header) (key : String) : List String :=
  match h with
  | [] => []
  | (k, vs) :: rest => if k = key then vs else Header.Values rest key

/-- The first value of a key, `""` when there is none (`Header.Get`). -/
def Header.Get (h : Header) (key : String) : String :=
  match Header.Values h key with
  | [] => ""
  | v :: _ => v

/-- Replace the values of a key by the single `value` (`Header.Set`). -/
def Header.Set (h : Header) (key value : String) : Header :=
  match h with
  | [] => [(key, [value])]
  | (k, vs) :: rest =>
    if k = key then (k, [value]) :: rest else (k, vs) :: Header.Set rest key value

/-- Append `value` to the values of a key (`Header.Add`). -/
def Header.Add (h : Header) (key value : String) : Header :=
  match h with
  | [] => [(key, [value])]
  | (k, vs) :: rest =>
    if k = key then (k, vs ++ [value]) :: rest else (k, vs) :: Header.Add rest key value

/-! ## The response writer and `render.JSON` -/

/-- What a handler has done to its `http.ResponseWriter`. -/
structure ResponseWriter where
  /-- The header map returned by `w.Header()`. -/
  header : Header
  /-- The status of the first `WriteHeader`, `none` before it. -/
  status : Option Nat
  /-- The JSON documents written to the body, in order. -/
  written : List Object

/-- The writer `net/http` hands to a handler: nothing sent yet. -/
def ResponseWriter.fresh (h : Header) : ResponseWriter :=
  { header := h, status := none, written := [] }

/-- The call `w.WriteHeader(code)`: only the first one counts. -/
def ResponseWriter.WriteHeader (w : ResponseWriter) (code : Nat) : ResponseWriter :=
  match w.status with
  | none => { w with status := some code }
  | some _ => w

/-- The call `render.New().JSON(w, status, v)` of unrolled/render with its default
options: set the content type, write the status line, write the document. -/
def JSON (w : ResponseWriter) (status : Nat) (v : Object) : ResponseWriter :=
  let w1 := { w with header := w.header.Set "Content-Type" "application/json; charset=UTF-8" }
  let w2 := w1.WriteHeader status
  { w2 with written := w2.written ++ [v] }

/-- The HTTP status codes named in `rpc.go`. -/
def StatusOK : Nat := 200
/-- The status `http.StatusBadRequest`. -/
def StatusBadRequest : Nat := 400
/-- The status `http.StatusNotFound`. -/
def StatusNotFound : Nat := 404
/-- The status `http.StatusInternalServerError`. -/
def StatusInternalServerError : Nat := 500

/-! ## `Call` and its decoding -/

/-- The request envelope (`type Call struct`). A nil `Params` is `[]`. -/
structure Call where
  Id : String
  Method : String
  Params : List Value

/-- The request body as the decoder's scanner sees it: either it does not
delimit a JSON value (`readValue` fails: a syntax error, `EOF` on an empty
body, a read error) and `err` is that error's text, or its first JSON value
is `v`. -/
inductive Body where
  | invalid (err : String)
  | value (v : Value)

/-- The word `encoding/json` uses for a JSON value in an `UnmarshalTypeError`. -/
def Value.kind : Value → String
  | .null => "null"
  | .bool _ => "bool"
  | .number _ => "number"
  | .string _ => "string"
  | .array _ => "array"
  | .object _ => "object"

/-- Case folding of object keys (`foldName` of `encoding/json`), normalised to
the lower-case letter: ASCII letters fold together, and so do the two
non-ASCII runes whose simple fold orbit holds an ASCII letter, U+017F with `s`
and U+212A with `k`. -/
def foldRune (c : Char) : Char :=
  if c = Char.ofNat 0x17F then 's'
  else if c = Char.ofNat 0x212A then 'k'
  else c.toLower

/-- A key folded rune by rune. -/
def foldName (key : String) : String :=
  String.mk (key.data.map foldRune)

/-- The decoder keeps the first error it saves (`decodeState.saveError`). -/
def saveError (saved : Option String) (err : String) : Option String :=
  match saved with
  | none => some err
  | some e => some e

/-- Text of the `UnmarshalTypeError` for a value that does not fit a field of `Call`. -/
def fieldTypeError (v : Value) (field goType : String) : String :=
  "json: cannot unmarshal " ++ v.kind ++ " into Go struct field Call." ++ field ++
    " of type " ++ goType

/-- One key of the body object stored into the `Call` under construction
(the loop body of `decodeState.object` for the struct `Call`): the key selects
a field by its `json` tag, case-insensitively; a key that selects none is
skipped; `null` leaves a string field alone and resets the slice; a value of
the wrong JSON type saves an error and leaves the field alone. -/
def storeField (st : Call × Option String) (kv : String × Value) : Call × Option String :=
  let name := foldName kv.1
  if name = "id" then
    match kv.2 with
    | .string s => ({ st.1 with Id := s }, st.2)
    | .null => st
    | v => (st.1, saveError st.2 (fieldTypeError v "id" "string"))
  else if name = "method" then
    match kv.2 with
    | .string s => ({ st.1 with Method := s }, st.2)
    | .null => st
    | v => (st.1, saveError st.2 (fieldTypeError v "method" "string"))
  else if name = "params" then
    match kv.2 with
    | .array xs => ({ st.1 with Params := xs }, st.2)
    | .null => ({ st.1 with Params := [] }, st.2)
    | v => (st.1, saveError st.2 (fieldTypeError v "params" "[]interface {}"))
  else st

/-- The zero `Call` that `var call Call` declares. -/
def Call.zero : Call := { Id := "", Method := "", Params := [] }

/-- The call `json.Unmarshal` of one JSON value into `&call` (`decodeState.unmarshal`):
an object is stored key by key, in order; `null` stores nothing; any other
value is a type error. The saved error, if any, is returned at the end. -/
def unmarshal (v : Value) : Except String Call :=
  match v with
  | .object kvs =>
    match kvs.foldl storeField (Call.zero, none) with
    | (call, none) => .ok call
    | (_, some err) => .error err
  | .null => .ok Call.zero
  | v => .error ("json: cannot unmarshal " ++ v.kind ++ " into Go value of type engine.Call")

/-- The statement `d.Decode(&call)` on a fresh decoder over the body. -/
def Decode (b : Body) : Except String Call :=
  match b with
  | .invalid err => .error err
  | .value v => unmarshal v

/-! ## Requests, the router, `Render` and `handle` -/

/-- The parts of a `http.Request` that `rpc.go` reads. -/
structure Request where
  Method : String
  Path : String
  Header : Header
  Body : Body

/-- A `http.Handler` (and a `httptreemux.HandlerFunc`), over an application state `σ`. -/
abbrev Handler (σ : Type) := ResponseWriter → Request → σ → ResponseWriter × σ

/-- The four methods of `*Router` that `handle` calls. They are defined
outside `rpc.go`; each takes the parameter list and the router's state and
returns its Go results and the new state. -/
structure Router (σ : Type) where
  rpcList : List Value → σ → (StringSlice × Option String) × σ
  rpcPublish : List Value → σ → (Value × Option String) × σ
  rpcTrickle : List Value → σ → Option String × σ
  rpcSubscribe : List Value → σ → (Value × Option String) × σ

/-- The receiver of `handle` (`type R struct`). -/
structure R (σ : Type) where
  router : Router σ

/-- The renderer of one request (`type Render struct`); its `impl` is the
stateless `render.New()` and is folded into `JSON`. -/
structure Render where
  w : ResponseWriter
  id : String

/-- The method `Render.RenderData`. -/
def Render.RenderData (r : Render) (data : Value) : ResponseWriter :=
  let body : Object := [("data", data)]
  let body := if r.id ≠ "" then body.set "id" (.string r.id) else body
  JSON r.w StatusOK body

/-- The method `Render.RenderError`, on the text `err.Error()`. -/
def Render.RenderError (r : Render) (err : String) : ResponseWriter :=
  let body : Object := [("error", .string err)]
  let body := if r.id ≠ "" then body.set "id" (.string r.id) else body
  JSON r.w StatusOK body

/-- The method `R.handle`. -/
def R.handle {σ : Type} (impl : R σ) : Handler σ := fun w r s =>
  match Decode r.Body with
  | .error err => (JSON w StatusBadRequest [("error", .string err)], s)
  | .ok call =>
    let renderer : Render := { w := w, id := call.Id }
    if call.Method = "list" then
      match impl.router.rpcList call.Params s with
      | ((_, some err), s') => (renderer.RenderError err, s')
      | ((peers, none), s') =>
        (renderer.RenderData (.object [("peers", Value.strings peers)]), s')
    else if call.Method = "publish" then
      match impl.router.rpcPublish call.Params s with
      | ((_, some err), s') => (renderer.RenderError err, s')
      | ((answer, none), s') => (renderer.RenderData answer, s')
    else if call.Method = "trickle" then
      match impl.router.rpcTrickle call.Params s with
      | (some err, s') => (renderer.RenderError err, s')
      | (none, s') => (renderer.RenderData (.object []), s')
    else if call.Method = "subscribe" then
      match impl.router.rpcSubscribe call.Params s with
      | ((_, some err), s') => (renderer.RenderError err, s')
      | ((answer, none), s') => (renderer.RenderData answer, s')
    else
      (renderer.RenderError ("invalid method " ++ call.Method), s)

/-! ## `registerHandlers` and `handleCORS` -/

/-- The three handler fields of `httptreemux.TreeMux` that `registerHandlers`
assigns. Each ignores its request (and the third argument Go passes). -/
structure TreeMux where
  MethodNotAllowedHandler : ResponseWriter → Request → ResponseWriter
  NotFoundHandler : ResponseWriter → Request → ResponseWriter
  PanicHandler : ResponseWriter → Request → ResponseWriter

/-- The function `registerHandlers`. -/
def registerHandlers (router : TreeMux) : TreeMux :=
  { router with
    MethodNotAllowedHandler := fun w _ =>
      JSON w StatusNotFound [("error", .string "not found")]
    NotFoundHandler := fun w _ =>
      JSON w StatusNotFound [("error", .string "not found")]
    PanicHandler := fun w _ =>
      JSON w StatusInternalServerError [("error", .string "server error")] }

/-- The function `handleCORS`. -/
def handleCORS {σ : Type} (handler : Handler σ) : Handler σ := fun w r s =>
  let origin := r.Header.Get "Origin"
  if origin = "" then
    handler w r s
  else
    let w := { w with header := w.header.Set "Access-Control-Allow-Origin" origin }
    let w := { w with
      header := w.header.Add "Access-Control-Allow-Headers"
        "Content-Type,Authorization,Mixin-Conversation-ID" }
    let w := { w with header := w.header.Set "Access-Control-Allow-Methods" "OPTIONS,GET,POST,DELETE" }
    let w := { w with header := w.header.Set "Access-Control-Max-Age" "600" }
    if r.Method = "OPTIONS" then
      (JSON w StatusOK [], s)
    else
      handler w r s

/-! ## Concrete routers and requests used to exercise the model -/

/-- A router that logs every invocation (method name and parameter list) in
its state and always succeeds. -/
def logRouter : Router (List (String × List Value)) where
  rpcList := fun params log => ((some ["alice", "bob"], none), log ++ [("list", params)])
  rpcPublish := fun params log =>
    ((.object [("type", .string "answer")], none), log ++ [("publish", params)])
  rpcTrickle := fun params log => (none, log ++ [("trickle", params)])
  rpcSubscribe := fun params log => ((.string "sdp", none), log ++ [("subscribe", params)])

/-- A router that logs every invocation and always fails. -/
def failRouter : Router (List (String × List Value)) where
  rpcList := fun params log => ((none, some "invalid params"), log ++ [("list", params)])
  rpcPublish := fun params log => ((.null, some "invalid sdp"), log ++ [("publish", params)])
  rpcTrickle := fun params log => (some "invalid candidate", log ++ [("trickle", params)])
  rpcSubscribe := fun params log => ((.null, some "peer not found"), log ++ [("subscribe", params)])

/-- A router whose `list` returns the nil slice and a nil error (a room
without peers, collected into a slice that was never allocated); the other
methods are those of the logging router. -/
def nilListRouter : Router (List (String × List Value)) :=
  { logRouter with
    rpcList := fun params log => ((none, none), log ++ [("list", params)]) }

/-- A POST to the root path with the given JSON value as body. -/
def post (v : Value) : Request :=
  { Method := "POST", Path := "/", Header := [], Body := .value v }

/-- The body of a call: id, method and params, in this order. -/
def callBody (id method : String) (params : List Value) : Value :=
  .object [("id", .string id), ("method", .string method), ("params", .array params)]

/-- Whether a header key is one of the `Access-Control-*` keys. -/
def isAccessControl (key : String) : Bool :=
  List.isPrefixOf "Access-Control-".data key.data

/-- A wrapped handler that leaves the `Access-Control-*` headers of its writer
as it found them. -/
def KeepsAccessControl {σ : Type} (handler : Handler σ) : Prop :=
  ∀ (w : ResponseWriter) (r : Request) (s : σ) (key : String),
    isAccessControl key = true →
      (handler w r s).1.header.Values key = w.header.Values key

/-- A mux on which no handler field has been set yet. -/
def blankMux : TreeMux :=
  { MethodNotAllowedHandler := fun w _ => w
    NotFoundHandler := fun w _ => w
    PanicHandler := fun w _ => w }

/-- A wrapped handler that counts how often it is entered, and answers as the
mux of `ServeRPC` does for a verb that has no route. -/
def countingMux : Handler Nat := fun w r n =>
  ((registerHandlers blankMux).MethodNotAllowedHandler w r, n + 1)

/-- An `OPTIONS` request for the root path, with the given headers and an empty body. -/
def options (h : Header) : Request :=
  { Method := "OPTIONS", Path := "/", Header := h, Body := .invalid "EOF" }

/-! ## Lemmas on the writer and the renderer -/

theorem JSON_status_fresh (hdr : Header) (code : Nat) (v : Object) :
    (JSON (ResponseWriter.fresh hdr) code v).status = some code := rfl

theorem JSON_written_fresh (hdr : Header) (code : Nat) (v : Object) :
    (JSON (ResponseWriter.fresh hdr) code v).written = [v] := rfl

theorem JSON_written (w : ResponseWriter) (code : Nat) (v : Object) :
    (JSON w code v).written = w.written ++ [v] := by
  unfold JSON ResponseWriter.WriteHeader
  cases h : w.status <;> simp [h]

theorem JSON_header (w : ResponseWriter) (code : Nat) (v : Object) :
    (JSON w code v).header = w.header.Set "Content-Type" "application/json; charset=UTF-8" := by
  unfold JSON ResponseWriter.WriteHeader
  cases h : w.status <;> simp [h]

/-- The envelope of `RenderData` for a given id. -/
theorem RenderData_eq (w : ResponseWriter) (id : String) (data : Value) :
    Render.RenderData { w := w, id := id } data =
      JSON w 200 (if id = "" then [("data", data)] else [("data", data), ("id", .string id)]) := by
  unfold Render.RenderData
  by_cases h : id = "" <;> simp [h, Object.set, StatusOK]

/-- The envelope of `RenderError` for a given id. -/
theorem RenderError_eq (w : ResponseWriter) (id : String) (err : String) :
    Render.RenderError { w := w, id := id } err =
      JSON w 200
        (if id = "" then [("error", .string err)] else [("error", .string err), ("id", .string id)]) := by
  unfold Render.RenderError
  by_cases h : id = "" <;> simp [h, Object.set, StatusOK]

/-! ## Lemmas on `handle`, branch by branch -/

section Branches

variable {σ : Type} (impl : R σ) (w : ResponseWriter) (r : Request) (s : σ) (call : Call)

theorem handle_decode_error (err : String) (hdec : Decode r.Body = .error err) :
    impl.handle w r s = (JSON w 400 [("error", .string err)], s) := by
  unfold R.handle
  simp [hdec, StatusBadRequest]

theorem handle_list (hdec : Decode r.Body = .ok call) (hm : call.Method = "list") :
    impl.handle w r s =
      match impl.router.rpcList call.Params s with
      | ((_, some err), s') => (Render.RenderError { w := w, id := call.Id } err, s')
      | ((peers, none), s') =>
        (Render.RenderData { w := w, id := call.Id } (.object [("peers", Value.strings peers)]), s') := by
  unfold R.handle
  simp [hdec, hm]

theorem handle_publish (hdec : Decode r.Body = .ok call) (hm : call.Method = "publish") :
    impl.handle w r s =
      match impl.router.rpcPublish call.Params s with
      | ((_, some err), s') => (Render.RenderError { w := w, id := call.Id } err, s')
      | ((answer, none), s') => (Render.RenderData { w := w, id := call.Id } answer, s') := by
  unfold R.handle
  simp [hdec, hm]

theorem handle_trickle (hdec : Decode r.Body = .ok call) (hm : call.Method = "trickle") :
    impl.handle w r s =
      match impl.router.rpcTrickle call.Params s with
      | (some err, s') => (Render.RenderError { w := w, id := call.Id } err, s')
      | (none, s') => (Render.RenderData { w := w, id := call.Id } (.object []), s') := by
  unfold R.handle
  simp [hdec, hm]

theorem handle_subscribe (hdec : Decode r.Body = .ok call) (hm : call.Method = "subscribe") :
    impl.handle w r s =
      match impl.router.rpcSubscribe call.Params s with
      | ((_, some err), s') => (Render.RenderError { w := w, id := call.Id } err, s')
      | ((answer, none), s') => (Render.RenderData { w := w, id := call.Id } answer, s') := by
  unfold R.handle
  simp [hdec, hm]

theorem handle_default (hdec : Decode r.Body = .ok call)
    (h1 : call.Method ≠ "list") (h2 : call.Method ≠ "publish")
    (h3 : call.Method ≠ "trickle") (h4 : call.Method ≠ "subscribe") :
    impl.handle w r s =
      (Render.RenderError { w := w, id := call.Id } ("invalid method " ++ call.Method), s) := by
  unfold R.handle
  simp [hdec, h1, h2, h3, h4]

/-- After a successful decode, `handle` ends in exactly one call of the renderer
built from the call's id. -/
theorem handle_renders (hdec : Decode r.Body = .ok call) :
    ∃ s', (∃ data, impl.handle w r s = (Render.RenderData { w := w, id := call.Id } data, s')) ∨
      (∃ err, impl.handle w r s = (Render.RenderError { w := w, id := call.Id } err, s')) := by
  by_cases h1 : call.Method = "list"
  · rw [handle_list impl w r s call hdec h1]
    rcases impl.router.rpcList call.Params s with ⟨⟨peers, _ | err⟩, s'⟩
    · exact ⟨s', Or.inl ⟨_, rfl⟩⟩
    · exact ⟨s', Or.inr ⟨_, rfl⟩⟩
  by_cases h2 : call.Method = "publish"
  · rw [handle_publish impl w r s call hdec h2]
    rcases impl.router.rpcPublish call.Params s with ⟨⟨answer, _ | err⟩, s'⟩
    · exact ⟨s', Or.inl ⟨_, rfl⟩⟩
    · exact ⟨s', Or.inr ⟨_, rfl⟩⟩
  by_cases h3 : call.Method = "trickle"
  · rw [handle_trickle impl w r s call hdec h3]
    rcases impl.router.rpcTrickle call.Params s with ⟨_ | err, s'⟩
    · exact ⟨s', Or.inl ⟨_, rfl⟩⟩
    · exact ⟨s', Or.inr ⟨_, rfl⟩⟩
  by_cases h4 : call.Method = "subscribe"
  · rw [handle_subscribe impl w r s call hdec h4]
    rcases impl.router.rpcSubscribe call.Params s with ⟨⟨answer, _ | err⟩, s'⟩
    · exact ⟨s', Or.inl ⟨_, rfl⟩⟩
    · exact ⟨s', Or.inr ⟨_, rfl⟩⟩
  · exact ⟨s, Or.inr ⟨_, handle_default impl w r s call hdec h1 h2 h3 h4⟩⟩

end Branches

/-! ## The id of the call in the envelope -/

/-- C1: for every call that decodes successfully, whatever the outcome of the
dispatch, the one envelope `handle` writes has the key `id` if and only if the
call's id is not the empty string, and then the value of the key is the id. -/
theorem handle_id_echo {σ : Type} (impl : R σ) (hdr : Header) (r : Request) (s : σ) (call : Call)
    (hdec : Decode r.Body = .ok call) :
    ∃ body, (impl.handle (ResponseWriter.fresh hdr) r s).1.written = [body] ∧
      (body.has "id" = true ↔ call.Id ≠ "") ∧
      (call.Id ≠ "" → body.get "id" = some (.string call.Id)) := by
  obtain ⟨s', h | h⟩ := handle_renders impl (ResponseWriter.fresh hdr) r s call hdec
  · obtain ⟨data, h⟩ := h
    rw [h, RenderData_eq]
    refine ⟨_, JSON_written_fresh _ _ _, ?_, ?_⟩ <;>
      by_cases hid : call.Id = "" <;> simp [hid, Object.has, Object.get]
  · obtain ⟨err, h⟩ := h
    rw [h, RenderError_eq]
    refine ⟨_, JSON_written_fresh _ _ _, ?_, ?_⟩ <;>
      by_cases hid : call.Id = "" <;> simp [hid, Object.has, Object.get]

/-- C1, at a `publish` call with id `"42"`. -/
theorem handle_id_echo_witness :
    Decode (post (callBody "42" "publish" [])).Body = .ok ⟨"42", "publish", []⟩ ∧
    ∃ body, ((R.handle ⟨logRouter⟩) (ResponseWriter.fresh []) (post (callBody "42" "publish" [])) []).1.written
        = [body] ∧
      (body.has "id" = true ↔ (⟨"42", "publish", []⟩ : Call).Id ≠ "") ∧
      ((⟨"42", "publish", []⟩ : Call).Id ≠ "" → body.get "id" = some (.string "42")) :=
  ⟨rfl, handle_id_echo ⟨logRouter⟩ [] (post (callBody "42" "publish" [])) [] ⟨"42", "publish", []⟩ rfl⟩

/-! ## Exactly one of `data` and `error` -/

/-- C2: every envelope `handle` writes (for a decoded call and for a body that
does not decode) carries exactly one of the keys `data` and `error`; an
envelope of `RenderData` has `data` and no `error`, an envelope of
`RenderError`, of the decode-failure path and of the three handlers set by
`registerHandlers` has `error` and no `data`. -/
theorem envelope_data_xor_error :
    (∀ (σ : Type) (impl : R σ) (hdr : Header) (r : Request) (s : σ),
      ∃ body, (impl.handle (ResponseWriter.fresh hdr) r s).1.written = [body] ∧
        ((body.has "data" = true ∧ body.has "error" = false) ∨
          (body.has "error" = true ∧ body.has "data" = false))) ∧
    (∀ (rd : Render) (data : Value),
      ∃ body, (rd.RenderData data).written = rd.w.written ++ [body] ∧
        body.has "data" = true ∧ body.has "error" = false) ∧
    (∀ (rd : Render) (err : String),
      ∃ body, (rd.RenderError err).written = rd.w.written ++ [body] ∧
        body.has "error" = true ∧ body.has "data" = false) ∧
    (∀ (σ : Type) (impl : R σ) (w : ResponseWriter) (r : Request) (s : σ) (err : String),
      Decode r.Body = .error err →
      ∃ body, (impl.handle w r s).1.written = w.written ++ [body] ∧
        body.has "error" = true ∧ body.has "data" = false) ∧
    (∀ (mux : TreeMux) (w : ResponseWriter) (r : Request),
      (∃ body, ((registerHandlers mux).NotFoundHandler w r).written = w.written ++ [body] ∧
        body.has "error" = true ∧ body.has "data" = false) ∧
      (∃ body, ((registerHandlers mux).MethodNotAllowedHandler w r).written = w.written ++ [body] ∧
        body.has "error" = true ∧ body.has "data" = false) ∧
      (∃ body, ((registerHandlers mux).PanicHandler w r).written = w.written ++ [body] ∧
        body.has "error" = true ∧ body.has "data" = false)) := by
  have hdata : ∀ (rd : Render) (data : Value),
      ∃ body, (rd.RenderData data).written = rd.w.written ++ [body] ∧
        body.has "data" = true ∧ body.has "error" = false := by
    rintro ⟨w, id⟩ data
    rw [RenderData_eq]
    refine ⟨_, JSON_written _ _ _, ?_, ?_⟩ <;>
      by_cases hid : id = "" <;> simp [hid, Object.has, Object.get]
  have herr : ∀ (rd : Render) (err : String),
      ∃ body, (rd.RenderError err).written = rd.w.written ++ [body] ∧
        body.has "error" = true ∧ body.has "data" = false := by
    rintro ⟨w, id⟩ err
    rw [RenderError_eq]
    refine ⟨_, JSON_written _ _ _, ?_, ?_⟩ <;>
      by_cases hid : id = "" <;> simp [hid, Object.has, Object.get]
  refine ⟨?_, hdata, herr, ?_, ?_⟩
  · intro σ impl hdr r s
    cases hdec : Decode r.Body with
    | error e =>
      rw [handle_decode_error impl _ r s e hdec]
      exact ⟨_, JSON_written_fresh _ _ _, Or.inr (by simp [Object.has, Object.get])⟩
    | ok call =>
      obtain ⟨s', h | h⟩ := handle_renders impl (ResponseWriter.fresh hdr) r s call hdec
      · obtain ⟨data, h⟩ := h
        obtain ⟨body, hw, hb⟩ := hdata ⟨ResponseWriter.fresh hdr, call.Id⟩ data
        rw [h]
        exact ⟨body, by simpa [ResponseWriter.fresh] using hw, Or.inl hb⟩
      · obtain ⟨err, h⟩ := h
        obtain ⟨body, hw, hb⟩ := herr ⟨ResponseWriter.fresh hdr, call.Id⟩ err
        rw [h]
        exact ⟨body, by simpa [ResponseWriter.fresh] using hw, Or.inr hb⟩
  · intro σ impl w r s err hdec
    rw [handle_decode_error impl w r s err hdec]
    exact ⟨_, JSON_written _ _ _, by simp [Object.has, Object.get]⟩
  · intro mux w r
    refine ⟨⟨_, JSON_written _ _ _, ?_⟩, ⟨_, JSON_written _ _ _, ?_⟩, ⟨_, JSON_written _ _ _, ?_⟩⟩ <;>
      simp [Object.has, Object.get]

/-- C2, at a body whose `method` is a number: the decode fails and the
envelope has `error` and no `data`. -/
theorem envelope_data_xor_error_witness :
    Decode (post (.object [("method", .number "1")])).Body =
        .error "json: cannot unmarshal number into Go struct field Call.method of type string" ∧
    ∃ body, ((R.handle ⟨logRouter⟩) (ResponseWriter.fresh [])
        (post (.object [("method", .number "1")])) []).1.written = [] ++ [body] ∧
      body.has "error" = true ∧ body.has "data" = false :=
  ⟨rfl, envelope_data_xor_error.2.2.2.1 _ ⟨logRouter⟩ (ResponseWriter.fresh [])
    (post (.object [("method", .number "1")])) [] _ rfl⟩

/-! ## Unknown methods -/

/-- C3: for a decoded call whose method is none of `list`, `publish`,
`trickle`, `subscribe` (compared exactly), `handle` leaves the router's state
untouched and its response is the same for every router (no router method
runs); the status is 200 and the envelope's `error` is `invalid method `
followed by the method string, which it therefore contains; there is no `data`. -/
theorem handle_unknown_method {σ : Type} (impl : R σ) (hdr : Header) (r : Request) (s : σ)
    (call : Call) (hdec : Decode r.Body = .ok call)
    (h1 : call.Method ≠ "list") (h2 : call.Method ≠ "publish")
    (h3 : call.Method ≠ "trickle") (h4 : call.Method ≠ "subscribe") :
    (impl.handle (ResponseWriter.fresh hdr) r s).2 = s ∧
    (∀ impl' : R σ, impl'.handle (ResponseWriter.fresh hdr) r s =
      impl.handle (ResponseWriter.fresh hdr) r s) ∧
    (impl.handle (ResponseWriter.fresh hdr) r s).1.status = some 200 ∧
    ∃ body msg, (impl.handle (ResponseWriter.fresh hdr) r s).1.written = [body] ∧
      body.get "error" = some (.string msg) ∧
      msg = "invalid method " ++ call.Method ∧
      List.IsInfix call.Method.data msg.data ∧
      body.has "data" = false := by
  have h := handle_default impl (ResponseWriter.fresh hdr) r s call hdec h1 h2 h3 h4
  refine ⟨by rw [h], ?_, ?_, ?_⟩
  · intro impl'
    rw [h, handle_default impl' (ResponseWriter.fresh hdr) r s call hdec h1 h2 h3 h4]
  · rw [h, RenderError_eq]
    rfl
  · rw [h, RenderError_eq]
    refine ⟨_, "invalid method " ++ call.Method, JSON_written_fresh _ _ _, ?_, rfl, ?_, ?_⟩
    · by_cases hid : call.Id = "" <;> simp [hid, Object.get]
    · exact ⟨"invalid method ".data, [], by simp⟩
    · by_cases hid : call.Id = "" <;> simp [hid, Object.has, Object.get]

/-- C3, at the method `List` (a case variant of `list`) with the logging router:
the log stays empty. -/
theorem handle_unknown_method_witness :
    ((R.handle ⟨logRouter⟩) (ResponseWriter.fresh []) (post (callBody "1" "List" [])) []).2 = [] ∧
    (∀ impl' : R (List (String × List Value)),
      impl'.handle (ResponseWriter.fresh []) (post (callBody "1" "List" [])) [] =
      (R.handle ⟨logRouter⟩) (ResponseWriter.fresh []) (post (callBody "1" "List" [])) []) ∧
    ((R.handle ⟨logRouter⟩) (ResponseWriter.fresh []) (post (callBody "1" "List" [])) []).1.status
      = some 200 ∧
    ∃ body msg,
      ((R.handle ⟨logRouter⟩) (ResponseWriter.fresh []) (post (callBody "1" "List" [])) []).1.written
        = [body] ∧
      body.get "error" = some (.string msg) ∧
      msg = "invalid method " ++ (⟨"1", "List", []⟩ : Call).Method ∧
      List.IsInfix (⟨"1", "List", []⟩ : Call).Method.data msg.data ∧
      body.has "data" = false :=
  handle_unknown_method ⟨logRouter⟩ [] (post (callBody "1" "List" [])) [] ⟨"1", "List", []⟩ rfl
    (by decide) (by decide) (by decide) (by decide)

/-! ## Handler failures -/

/-- C4: for each of the four methods, if the router method called on the
call's parameter list returns a non-nil error with text `e`, `handle` writes
status 200 and one envelope whose `error` is the string `e` itself, without a
`data` key, and with the call's id under `id` when the id is not empty. -/
theorem handle_handler_failure {σ : Type} (impl : R σ) (hdr : Header) (r : Request) (s : σ)
    (call : Call) (e : String) (hdec : Decode r.Body = .ok call)
    (hfail :
      (call.Method = "list" ∧ (impl.router.rpcList call.Params s).1.2 = some e) ∨
      (call.Method = "publish" ∧ (impl.router.rpcPublish call.Params s).1.2 = some e) ∨
      (call.Method = "trickle" ∧ (impl.router.rpcTrickle call.Params s).1 = some e) ∨
      (call.Method = "subscribe" ∧ (impl.router.rpcSubscribe call.Params s).1.2 = some e)) :
    (impl.handle (ResponseWriter.fresh hdr) r s).1.status = some 200 ∧
    ∃ body, (impl.handle (ResponseWriter.fresh hdr) r s).1.written = [body] ∧
      body.get "error" = some (.string e) ∧
      body.has "data" = false ∧
      (call.Id ≠ "" → body.get "id" = some (.string call.Id)) ∧
      (call.Id = "" → body.has "id" = false) := by
  have key : ∃ s', impl.handle (ResponseWriter.fresh hdr) r s =
      (Render.RenderError { w := ResponseWriter.fresh hdr, id := call.Id } e, s') := by
    rcases hfail with ⟨hm, he⟩ | ⟨hm, he⟩ | ⟨hm, he⟩ | ⟨hm, he⟩
    · rw [handle_list impl _ r s call hdec hm]
      rcases hres : impl.router.rpcList call.Params s with ⟨⟨peers, _ | err⟩, s'⟩
      · simp [hres] at he
      · simp only [hres, Option.some.injEq] at he
        exact ⟨s', by rw [he]⟩
    · rw [handle_publish impl _ r s call hdec hm]
      rcases hres : impl.router.rpcPublish call.Params s with ⟨⟨answer, _ | err⟩, s'⟩
      · simp [hres] at he
      · simp only [hres, Option.some.injEq] at he
        exact ⟨s', by rw [he]⟩
    · rw [handle_trickle impl _ r s call hdec hm]
      rcases hres : impl.router.rpcTrickle call.Params s with ⟨_ | err, s'⟩
      · simp [hres] at he
      · simp only [hres, Option.some.injEq] at he
        exact ⟨s', by rw [he]⟩
    · rw [handle_subscribe impl _ r s call hdec hm]
      rcases hres : impl.router.rpcSubscribe call.Params s with ⟨⟨answer, _ | err⟩, s'⟩
      · simp [hres] at he
      · simp only [hres, Option.some.injEq] at he
        exact ⟨s', by rw [he]⟩
  obtain ⟨s', h⟩ := key
  rw [h, RenderError_eq]
  refine ⟨rfl, _, JSON_written_fresh _ _ _, ?_, ?_, ?_, ?_⟩ <;>
    by_cases hid : call.Id = "" <;> simp [hid, Object.has, Object.get]

/-- C4, at a `trickle` call with id `"9"` on the failing router. -/
theorem handle_handler_failure_witness :
    ((R.handle ⟨failRouter⟩) (ResponseWriter.fresh [])
      (post (callBody "9" "trickle" [.string "x"])) []).1.status = some 200 ∧
    ∃ body, ((R.handle ⟨failRouter⟩) (ResponseWriter.fresh [])
        (post (callBody "9" "trickle" [.string "x"])) []).1.written = [body] ∧
      body.get "error" = some (.string "invalid candidate") ∧
      body.has "data" = false ∧
      ((⟨"9", "trickle", [.string "x"]⟩ : Call).Id ≠ "" → body.get "id" = some (.string "9")) ∧
      ((⟨"9", "trickle", [.string "x"]⟩ : Call).Id = "" → body.has "id" = false) :=
  handle_handler_failure ⟨failRouter⟩ [] (post (callBody "9" "trickle" [.string "x"])) []
    ⟨"9", "trickle", [.string "x"]⟩ "invalid candidate" rfl
    (Or.inr (Or.inr (Or.inl ⟨rfl, rfl⟩)))

/-! ## Success payloads -/

/-- C5: for a decoded call with method `list`, if the list method returns the
slice `ps` and a nil error, `handle` writes status 200 and one envelope whose
`data` is the object with the single key `peers`, bound to `ps`: for a non-nil
`ps` that is the array of the strings of `ps`, in order, and for the nil slice
it is `null`, as the encoder writes it. The `data` is never `ps` itself (the
bare array), and there is no `error` key. -/
theorem handle_list_success {σ : Type} (impl : R σ) (hdr : Header) (r : Request) (s : σ)
    (call : Call) (ps : StringSlice) (hdec : Decode r.Body = .ok call)
    (hm : call.Method = "list") (hok : (impl.router.rpcList call.Params s).1 = (ps, none)) :
    (impl.handle (ResponseWriter.fresh hdr) r s).1.status = some 200 ∧
    ∃ body data, (impl.handle (ResponseWriter.fresh hdr) r s).1.written = [body] ∧
      body.get "data" = some data ∧
      data = .object [("peers", Value.strings ps)] ∧
      (∀ xs, ps = some xs → data = .object [("peers", .array (xs.map Value.string))]) ∧
      (ps = none → data = .object [("peers", .null)]) ∧
      data ≠ Value.strings ps ∧
      (∀ xs : List Value, data ≠ .array xs) ∧
      body.has "error" = false := by
  rw [handle_list impl _ r s call hdec hm]
  rcases hres : impl.router.rpcList call.Params s with ⟨⟨peers, _ | err⟩, s'⟩
  · simp only [hres, Prod.mk.injEq, and_true] at hok
    subst hok
    simp only [RenderData_eq]
    refine ⟨rfl, _, _, JSON_written_fresh _ _ _, ?_, rfl, ?_, ?_, ?_, ?_, ?_⟩
    · by_cases hid : call.Id = "" <;> simp [hid, Object.get]
    · intro xs hxs
      subst hxs
      rfl
    · intro hnil
      subst hnil
      rfl
    · cases peers <;> simp [Value.strings]
    · intro xs
      simp
    · by_cases hid : call.Id = "" <;> simp [hid, Object.has, Object.get]
  · simp [hres] at hok

/-- C5, at a `list` call on the logging router, which returns alice and bob,
and on the router whose `list` returns the nil slice. -/
theorem handle_list_success_witness :
    (((R.handle ⟨logRouter⟩) (ResponseWriter.fresh []) (post (callBody "" "list" [])) []).1.status
      = some 200 ∧
    ∃ body data,
      ((R.handle ⟨logRouter⟩) (ResponseWriter.fresh []) (post (callBody "" "list" [])) []).1.written
        = [body] ∧
      body.get "data" = some data ∧
      data = .object [("peers", .array [.string "alice", .string "bob"])] ∧
      body.has "error" = false) ∧
    (((R.handle ⟨nilListRouter⟩) (ResponseWriter.fresh []) (post (callBody "" "list" [])) []).1.status
      = some 200 ∧
    ∃ body data,
      ((R.handle ⟨nilListRouter⟩) (ResponseWriter.fresh []) (post (callBody "" "list" [])) []).1.written
        = [body] ∧
      body.get "data" = some data ∧
      data = .object [("peers", .null)] ∧
      body.has "error" = false) := by
  constructor
  · obtain ⟨hs, body, data, hw, hd, -, hxs, -, -, -, he⟩ :=
      handle_list_success ⟨logRouter⟩ [] (post (callBody "" "list" [])) [] ⟨"", "list", []⟩
        (some ["alice", "bob"]) rfl rfl rfl
    exact ⟨hs, body, data, hw, hd, hxs _ rfl, he⟩
  · obtain ⟨hs, body, data, hw, hd, -, -, hnil, -, -, he⟩ :=
      handle_list_success ⟨nilListRouter⟩ [] (post (callBody "" "list" [])) [] ⟨"", "list", []⟩
        none rfl rfl rfl
    exact ⟨hs, body, data, hw, hd, hnil rfl, he⟩

/-- C6: for a decoded call with method `trickle`, if the trickle method
returns a nil error, `handle` writes status 200 and one envelope that has the
key `data`, bound to the empty object (which is not `null`), and no `error`. -/
theorem handle_trickle_success {σ : Type} (impl : R σ) (hdr : Header) (r : Request) (s : σ)
    (call : Call) (hdec : Decode r.Body = .ok call)
    (hm : call.Method = "trickle") (hok : (impl.router.rpcTrickle call.Params s).1 = none) :
    (impl.handle (ResponseWriter.fresh hdr) r s).1.status = some 200 ∧
    ∃ body data, (impl.handle (ResponseWriter.fresh hdr) r s).1.written = [body] ∧
      body.has "data" = true ∧
      body.get "data" = some data ∧
      data = .object [] ∧
      data ≠ .null ∧
      body.has "error" = false := by
  rw [handle_trickle impl _ r s call hdec hm]
  rcases hres : impl.router.rpcTrickle call.Params s with ⟨_ | err, s'⟩
  · simp only [RenderData_eq]
    refine ⟨rfl, _, _, JSON_written_fresh _ _ _, ?_, ?_, rfl, by simp, ?_⟩ <;>
      by_cases hid : call.Id = "" <;> simp [hid, Object.has, Object.get]
  · simp [hres] at hok

/-- C6, at a `trickle` call on the logging router. -/
theorem handle_trickle_success_witness :
    ((R.handle ⟨logRouter⟩) (ResponseWriter.fresh [])
      (post (callBody "t" "trickle" [.number "1"])) []).1.status = some 200 ∧
    ∃ body data, ((R.handle ⟨logRouter⟩) (ResponseWriter.fresh [])
        (post (callBody "t" "trickle" [.number "1"])) []).1.written = [body] ∧
      body.has "data" = true ∧
      body.get "data" = some data ∧
      data = .object [] ∧
      data ≠ .null ∧
      body.has "error" = false :=
  handle_trickle_success ⟨logRouter⟩ [] (post (callBody "t" "trickle" [.number "1"])) []
    ⟨"t", "trickle", [.number "1"]⟩ rfl rfl rfl

/-- C7: for a decoded call with method `publish` (respectively `subscribe`),
the state after `handle` is the state after the publish (subscribe) method
run on the call's own parameter list, and if that method returns the answer
`a` with a nil error, `handle` writes status 200 and one envelope whose `data`
is `a` itself, with no `error` key. -/
theorem handle_answer_passthrough {σ : Type} (impl : R σ) (hdr : Header) (r : Request) (s : σ)
    (call : Call) (hdec : Decode r.Body = .ok call) :
    (call.Method = "publish" →
      (impl.handle (ResponseWriter.fresh hdr) r s).2 = (impl.router.rpcPublish call.Params s).2 ∧
      ∀ a, (impl.router.rpcPublish call.Params s).1 = (a, none) →
        (impl.handle (ResponseWriter.fresh hdr) r s).1.status = some 200 ∧
        ∃ body, (impl.handle (ResponseWriter.fresh hdr) r s).1.written = [body] ∧
          body.get "data" = some a ∧ body.has "error" = false) ∧
    (call.Method = "subscribe" →
      (impl.handle (ResponseWriter.fresh hdr) r s).2 = (impl.router.rpcSubscribe call.Params s).2 ∧
      ∀ a, (impl.router.rpcSubscribe call.Params s).1 = (a, none) →
        (impl.handle (ResponseWriter.fresh hdr) r s).1.status = some 200 ∧
        ∃ body, (impl.handle (ResponseWriter.fresh hdr) r s).1.written = [body] ∧
          body.get "data" = some a ∧ body.has "error" = false) := by
  constructor
  · intro hm
    rw [handle_publish impl _ r s call hdec hm]
    rcases hres : impl.router.rpcPublish call.Params s with ⟨⟨answer, _ | err⟩, s'⟩
    · refine ⟨rfl, ?_⟩
      intro a ha
      simp only [Prod.mk.injEq, and_true] at ha
      subst ha
      simp only [RenderData_eq]
      refine ⟨rfl, _, JSON_written_fresh _ _ _, ?_, ?_⟩ <;>
        by_cases hid : call.Id = "" <;> simp [hid, Object.has, Object.get]
    · refine ⟨rfl, ?_⟩
      intro a ha
      simp at ha
  · intro hm
    rw [handle_subscribe impl _ r s call hdec hm]
    rcases hres : impl.router.rpcSubscribe call.Params s with ⟨⟨answer, _ | err⟩, s'⟩
    · refine ⟨rfl, ?_⟩
      intro a ha
      simp only [Prod.mk.injEq, and_true] at ha
      subst ha
      simp only [RenderData_eq]
      refine ⟨rfl, _, JSON_written_fresh _ _ _, ?_, ?_⟩ <;>
        by_cases hid : call.Id = "" <;> simp [hid, Object.has, Object.get]
    · refine ⟨rfl, ?_⟩
      intro a ha
      simp at ha

/-- C7, at a `publish` call on the logging router: the log holds the one
invocation, with the call's parameters, and the answer is the `data`. -/
theorem handle_answer_passthrough_witness :
    ((R.handle ⟨logRouter⟩) (ResponseWriter.fresh [])
        (post (callBody "p" "publish" [.string "offer", .number "2"])) []).2
      = [("publish", [.string "offer", .number "2"])] ∧
    ((R.handle ⟨logRouter⟩) (ResponseWriter.fresh [])
        (post (callBody "p" "publish" [.string "offer", .number "2"])) []).1.status = some 200 ∧
    ∃ body, ((R.handle ⟨logRouter⟩) (ResponseWriter.fresh [])
        (post (callBody "p" "publish" [.string "offer", .number "2"])) []).1.written = [body] ∧
      body.get "data" = some (.object [("type", .string "answer")]) ∧ body.has "error" = false :=
  have h := (handle_answer_passthrough ⟨logRouter⟩ []
    (post (callBody "p" "publish" [.string "offer", .number "2"])) []
    ⟨"p", "publish", [.string "offer", .number "2"]⟩ rfl).1 rfl
  ⟨h.1, h.2 (.object [("type", .string "answer")]) rfl⟩

/-! ## Lemmas on header maps -/

theorem Values_Set_same (h : Header) (key value : String) :
    (h.Set key value).Values key = [value] := by
  induction h with
  | nil => simp [Header.Set, Header.Values]
  | cons kv rest ih =>
    obtain ⟨k, vs⟩ := kv
    by_cases hk : k = key <;> simp [Header.Set, Header.Values, hk, ih]

theorem Values_Set_other (h : Header) (key value key' : String) (hne : key' ≠ key) :
    (h.Set key value).Values key' = h.Values key' := by
  induction h with
  | nil => simp [Header.Set, Header.Values, Ne.symm hne]
  | cons kv rest ih =>
    obtain ⟨k, vs⟩ := kv
    by_cases hk : k = key
    · subst hk
      simp [Header.Set, Header.Values, Ne.symm hne]
    · by_cases hk' : k = key'
      · subst hk'
        simp [Header.Set, Header.Values, hne]
      · simp [Header.Set, Header.Values, hk, hk', ih]

theorem Values_Add_same (h : Header) (key value : String) :
    (h.Add key value).Values key = h.Values key ++ [value] := by
  induction h with
  | nil => simp [Header.Add, Header.Values]
  | cons kv rest ih =>
    obtain ⟨k, vs⟩ := kv
    by_cases hk : k = key <;> simp [Header.Add, Header.Values, hk, ih]

theorem Values_Add_other (h : Header) (key value key' : String) (hne : key' ≠ key) :
    (h.Add key value).Values key' = h.Values key' := by
  induction h with
  | nil => simp [Header.Add, Header.Values, Ne.symm hne]
  | cons kv rest ih =>
    obtain ⟨k, vs⟩ := kv
    by_cases hk : k = key
    · subst hk
      simp [Header.Add, Header.Values, Ne.symm hne]
    · by_cases hk' : k = key'
      · subst hk'
        simp [Header.Add, Header.Values, hne]
      · simp [Header.Add, Header.Values, hk, hk', ih]

/-- The call `JSON` touches the content type only. -/
theorem JSON_keeps (w : ResponseWriter) (code : Nat) (v : Object) (key : String)
    (hkey : isAccessControl key = true) :
    (JSON w code v).header.Values key = w.header.Values key := by
  rw [JSON_header]
  apply Values_Set_other
  intro h
  subst h
  revert hkey
  decide

theorem Render_keeps (w : ResponseWriter) (id : String) :
    (∀ data key, isAccessControl key = true →
      (Render.RenderData { w := w, id := id } data).header.Values key = w.header.Values key) ∧
    (∀ err key, isAccessControl key = true →
      (Render.RenderError { w := w, id := id } err).header.Values key = w.header.Values key) := by
  constructor
  · intro data key hkey
    rw [RenderData_eq]
    exact JSON_keeps _ _ _ _ hkey
  · intro err key hkey
    rw [RenderError_eq]
    exact JSON_keeps _ _ _ _ hkey

/-- The handler `handle` leaves the `Access-Control-*` headers alone. -/
theorem handle_keeps {σ : Type} (impl : R σ) : KeepsAccessControl impl.handle := by
  intro w r s key hkey
  cases hdec : Decode r.Body with
  | error e =>
    rw [handle_decode_error impl w r s e hdec]
    exact JSON_keeps _ _ _ _ hkey
  | ok call =>
    obtain ⟨s', h | h⟩ := handle_renders impl w r s call hdec
    · obtain ⟨data, h⟩ := h
      rw [h]
      exact (Render_keeps w call.Id).1 data key hkey
    · obtain ⟨err, h⟩ := h
      rw [h]
      exact (Render_keeps w call.Id).2 err key hkey

/-- The writer as `handleCORS` leaves it before it answers or hands over. -/
theorem handleCORS_of_origin {σ : Type} (handler : Handler σ) (w : ResponseWriter) (r : Request)
    (s : σ) (ho : r.Header.Get "Origin" ≠ "") :
    ∃ w', w'.status = w.status ∧ w'.written = w.written ∧
      w'.header.Values "Access-Control-Allow-Origin" = [r.Header.Get "Origin"] ∧
      w'.header.Values "Access-Control-Allow-Headers" =
        w.header.Values "Access-Control-Allow-Headers" ++
          ["Content-Type,Authorization,Mixin-Conversation-ID"] ∧
      w'.header.Values "Access-Control-Allow-Methods" = ["OPTIONS,GET,POST,DELETE"] ∧
      w'.header.Values "Access-Control-Max-Age" = ["600"] ∧
      handleCORS handler w r s =
        if r.Method = "OPTIONS" then (JSON w' 200 [], s) else handler w' r s := by
  refine ⟨ResponseWriter.mk
      ((((w.header.Set "Access-Control-Allow-Origin" (r.Header.Get "Origin")).Add
        "Access-Control-Allow-Headers" "Content-Type,Authorization,Mixin-Conversation-ID").Set
        "Access-Control-Allow-Methods" "OPTIONS,GET,POST,DELETE").Set
        "Access-Control-Max-Age" "600") w.status w.written, rfl, rfl, ?_, ?_, ?_, ?_, ?_⟩
  · rw [Values_Set_other _ _ _ _ (by decide), Values_Set_other _ _ _ _ (by decide),
      Values_Add_other _ _ _ _ (by decide), Values_Set_same]
  · rw [Values_Set_other _ _ _ _ (by decide), Values_Set_other _ _ _ _ (by decide),
      Values_Add_same, Values_Set_other _ _ _ _ (by decide)]
  · rw [Values_Set_other _ _ _ _ (by decide), Values_Set_same]
  · rw [Values_Set_same]
  · unfold handleCORS
    simp [ho, StatusOK]

/-! ## `handleCORS` -/

/-- C8 fails as stated: an `OPTIONS` request without an `Origin` header is
handed to the wrapped handler (the counter goes from 0 to 1), and the response
is the handler's, here 404 with `not found`, not 200 with the empty object. -/
theorem handleCORS_options_without_origin :
    (options []).Method = "OPTIONS" ∧
    (handleCORS countingMux (ResponseWriter.fresh []) (options []) 0).2 = 1 ∧
    (handleCORS countingMux (ResponseWriter.fresh []) (options []) 0).1.status = some 404 ∧
    (handleCORS countingMux (ResponseWriter.fresh []) (options []) 0).1.written
      = [[("error", .string "not found")]] ∧
    (handleCORS countingMux (ResponseWriter.fresh []) (options []) 0).1.status ≠ some 200 ∧
    (handleCORS countingMux (ResponseWriter.fresh []) (options []) 0).1.written ≠ [[]] := by
  refine ⟨rfl, rfl, rfl, rfl, ?_, ?_⟩
  · show some 404 ≠ some 200
    decide
  · show [[("error", Value.string "not found")]] ≠ [[]]
    simp

/-- C8 as amended: for every `OPTIONS` request with a non-empty `Origin`
header, whatever its path, the response of `handleCORS` is the same for every
wrapped handler and the state is untouched (the request is not passed on),
the status is 200 and the body is the one document `{}`; with an absent or
empty `Origin`, `handleCORS` is the wrapped handler. -/
theorem handleCORS_preflight {σ : Type} (hdr : Header) (r : Request) (s : σ)
    (hm : r.Method = "OPTIONS") :
    (r.Header.Get "Origin" ≠ "" →
      ∃ w', (∀ handler : Handler σ, handleCORS handler (ResponseWriter.fresh hdr) r s = (w', s)) ∧
        w'.status = some 200 ∧ w'.written = [[]]) ∧
    (r.Header.Get "Origin" = "" →
      ∀ handler : Handler σ, handleCORS handler (ResponseWriter.fresh hdr) r s =
        handler (ResponseWriter.fresh hdr) r s) := by
  constructor
  · intro ho
    refine ⟨JSON (ResponseWriter.mk
      ((((hdr.Set "Access-Control-Allow-Origin" (r.Header.Get "Origin")).Add
        "Access-Control-Allow-Headers" "Content-Type,Authorization,Mixin-Conversation-ID").Set
        "Access-Control-Allow-Methods" "OPTIONS,GET,POST,DELETE").Set
        "Access-Control-Max-Age" "600") none []) 200 [], ?_, rfl, rfl⟩
    intro handler
    unfold handleCORS
    simp [ho, hm, StatusOK, ResponseWriter.fresh]
  · intro ho handler
    unfold handleCORS
    simp [ho]

/-- C8 as amended, at a preflight from `https://a.example` for the path `/x`. -/
theorem handleCORS_preflight_witness :
    ∃ w', (∀ handler : Handler Nat,
        handleCORS handler (ResponseWriter.fresh [])
          { Method := "OPTIONS", Path := "/x", Header := [("Origin", ["https://a.example"])],
            Body := .invalid "EOF" } 0 = (w', 0)) ∧
      w'.status = some 200 ∧ w'.written = [[]] :=
  (handleCORS_preflight (σ := Nat) []
    { Method := "OPTIONS", Path := "/x", Header := [("Origin", ["https://a.example"])],
      Body := .invalid "EOF" } 0 rfl).1 (by decide)

/-- C9: with an absent or empty `Origin`, `handleCORS` is the wrapped handler
on the untouched writer, so the headers are the ones that handler sets. With
a non-empty `Origin` `o`, and a wrapped handler that leaves `Access-Control-*`
headers alone, the response has `Access-Control-Allow-Origin` equal to `o`
(its only value), `Access-Control-Allow-Methods`, `Access-Control-Max-Age`
equal to `600`, and the allowed headers appended to
`Access-Control-Allow-Headers`. The handlers of `rpc.go` (`handle` and the
three of `registerHandlers`) leave those headers alone. -/
theorem handleCORS_headers {σ : Type} (handler : Handler σ) (w : ResponseWriter) (r : Request)
    (s : σ) :
    (r.Header.Get "Origin" = "" → handleCORS handler w r s = handler w r s) ∧
    (r.Header.Get "Origin" ≠ "" → KeepsAccessControl handler →
      (handleCORS handler w r s).1.header.Values "Access-Control-Allow-Origin"
        = [r.Header.Get "Origin"] ∧
      (handleCORS handler w r s).1.header.Get "Access-Control-Allow-Origin"
        = r.Header.Get "Origin" ∧
      (handleCORS handler w r s).1.header.Values "Access-Control-Allow-Methods"
        = ["OPTIONS,GET,POST,DELETE"] ∧
      (handleCORS handler w r s).1.header.Values "Access-Control-Max-Age" = ["600"] ∧
      (handleCORS handler w r s).1.header.Values "Access-Control-Allow-Headers"
        = w.header.Values "Access-Control-Allow-Headers" ++
          ["Content-Type,Authorization,Mixin-Conversation-ID"]) ∧
    (∀ impl : R σ, KeepsAccessControl impl.handle) ∧
    (∀ mux : TreeMux,
      KeepsAccessControl (fun w r (s : σ) => ((registerHandlers mux).NotFoundHandler w r, s)) ∧
      KeepsAccessControl (fun w r (s : σ) => ((registerHandlers mux).MethodNotAllowedHandler w r, s)) ∧
      KeepsAccessControl (fun w r (s : σ) => ((registerHandlers mux).PanicHandler w r, s))) := by
  refine ⟨?_, ?_, handle_keeps, ?_⟩
  · intro ho
    unfold handleCORS
    simp [ho]
  · intro ho hkeep
    obtain ⟨w', -, -, h1, h2, h3, h4, heq⟩ := handleCORS_of_origin handler w r s ho
    have hall : ∀ key, isAccessControl key = true →
        (handleCORS handler w r s).1.header.Values key = w'.header.Values key := by
      intro key hkey
      rw [heq]
      by_cases hm : r.Method = "OPTIONS"
      · simp only [hm, if_true]
        exact JSON_keeps _ _ _ _ hkey
      · simp only [hm, if_false]
        exact hkeep w' r s key hkey
    have hv : (handleCORS handler w r s).1.header.Values "Access-Control-Allow-Origin"
        = [r.Header.Get "Origin"] := by
      rw [hall _ (by decide), h1]
    refine ⟨hv, ?_, ?_, ?_, ?_⟩
    · rw [Header.Get, hv]
    · rw [hall _ (by decide), h3]
    · rw [hall _ (by decide), h4]
    · rw [hall _ (by decide), h2]
  · intro mux
    refine ⟨?_, ?_, ?_⟩ <;>
    · intro w r s key hkey
      exact JSON_keeps _ _ _ _ hkey

/-- C9, at a `list` call from `https://a.example` through `handle`. -/
theorem handleCORS_headers_witness :
    (handleCORS (R.handle ⟨logRouter⟩) (ResponseWriter.fresh [])
      { Method := "POST", Path := "/", Header := [("Origin", ["https://a.example"])],
        Body := .value (callBody "1" "list" []) } []).1.header.Values "Access-Control-Allow-Origin"
      = ["https://a.example"] ∧
    (handleCORS (R.handle ⟨logRouter⟩) (ResponseWriter.fresh [])
      { Method := "POST", Path := "/", Header := [("Origin", ["https://a.example"])],
        Body := .value (callBody "1" "list" []) } []).1.header.Values "Access-Control-Max-Age"
      = ["600"] :=
  have h := (handleCORS_headers (R.handle ⟨logRouter⟩) (ResponseWriter.fresh [])
    { Method := "POST", Path := "/", Header := [("Origin", ["https://a.example"])],
      Body := .value (callBody "1" "list" []) } []).2.1 (by decide) (handle_keeps _)
  ⟨h.1, h.2.2.2.1⟩

/-! ## Bodies that do not decode -/

theorem saveError_isSome (saved : Option String) (err : String) :
    (saveError saved err).isSome = true := by
  cases saved <;> rfl

/-- Once an error is saved, it stays saved. -/
theorem storeField_keeps_error (st : Call × Option String) (kv : String × Value)
    (h : st.2.isSome = true) : (storeField st kv).2.isSome = true := by
  unfold storeField
  simp only
  split_ifs
  · split <;> first | exact h | exact saveError_isSome _ _
  · split <;> first | exact h | exact saveError_isSome _ _
  · split <;> first | exact h | exact saveError_isSome _ _
  · exact h

theorem foldl_storeField_keeps_error (kvs : List (String × Value)) (st : Call × Option String)
    (h : st.2.isSome = true) : (kvs.foldl storeField st).2.isSome = true := by
  induction kvs generalizing st with
  | nil => exact h
  | cons kv rest ih => exact ih _ (storeField_keeps_error st kv h)

/-- A `method` key bound to a value that is neither a string nor `null` saves an error. -/
theorem storeField_bad_method (st : Call × Option String) (k : String) (v : Value)
    (hk : foldName k = "method") (hnull : v ≠ .null) (hstr : ∀ m, v ≠ .string m) :
    (storeField st (k, v)).2.isSome = true := by
  unfold storeField
  have hid : ¬ ("method" = "id") := by decide
  simp only [hk, hid, if_false, if_true]
  exact saveError_isSome _ _

theorem foldl_storeField_bad_method (kvs : List (String × Value)) (st : Call × Option String)
    (k : String) (v : Value) (hmem : (k, v) ∈ kvs)
    (hk : foldName k = "method") (hnull : v ≠ .null) (hstr : ∀ m, v ≠ .string m) :
    (kvs.foldl storeField st).2.isSome = true := by
  induction kvs generalizing st with
  | nil => simp at hmem
  | cons kv rest ih =>
    rcases List.mem_cons.mp hmem with h | h
    · subst h
      exact foldl_storeField_keeps_error rest _ (storeField_bad_method st k v hk hnull hstr)
    · exact ih _ h

/-- C10 fails as stated: an object without `method` decodes (to the empty
method), and so does one whose `method` is `null`; both are dispatched and
answered with status 200 and `invalid method `, the first with its `id`. -/
theorem handle_missing_method :
    Decode (post (.object [("id", .string "7")])).Body = .ok ⟨"7", "", []⟩ ∧
    ((R.handle ⟨logRouter⟩) (ResponseWriter.fresh []) (post (.object [("id", .string "7")])) []).1.status
      = some 200 ∧
    ((R.handle ⟨logRouter⟩) (ResponseWriter.fresh []) (post (.object [("id", .string "7")])) []).1.written
      = [[("error", .string "invalid method "), ("id", .string "7")]] ∧
    Decode (post (.object [("method", .null)])).Body = .ok ⟨"", "", []⟩ ∧
    ((R.handle ⟨logRouter⟩) (ResponseWriter.fresh []) (post (.object [("method", .null)])) []).1.status
      = some 200 ∧
    ((R.handle ⟨logRouter⟩) (ResponseWriter.fresh []) (post (.object [("method", .null)])) []).1.written
      = [[("error", .string "invalid method ")]] :=
  ⟨rfl, rfl, rfl, rfl, rfl, rfl⟩

/-- C10 as amended: whenever `Decode` fails on the body, with error text
`err`, `handle` leaves the router's state untouched, answers the same for
every router, and writes status 400 with the one envelope `{"error": err}`,
which has neither `id` nor `data`. `Decode` fails on every body that is not
JSON, on every top-level value other than an object or `null`, and on every
object that binds `method` to a value that is neither a string nor `null`. -/
theorem handle_decode_failure {σ : Type} (impl : R σ) (hdr : Header) (r : Request) (s : σ) :
    (∀ err, Decode r.Body = .error err →
      (impl.handle (ResponseWriter.fresh hdr) r s).2 = s ∧
      (∀ impl' : R σ, impl'.handle (ResponseWriter.fresh hdr) r s =
        impl.handle (ResponseWriter.fresh hdr) r s) ∧
      (impl.handle (ResponseWriter.fresh hdr) r s).1.status = some 400 ∧
      ∃ body, (impl.handle (ResponseWriter.fresh hdr) r s).1.written = [body] ∧
        body = [("error", .string err)] ∧
        body.has "id" = false ∧ body.has "data" = false) ∧
    ((∃ msg, r.Body = .invalid msg) ∨
      (∃ v, r.Body = .value v ∧ v ≠ .null ∧ ∀ kvs, v ≠ .object kvs) ∨
      (∃ kvs k v, r.Body = .value (.object kvs) ∧ (k, v) ∈ kvs ∧ foldName k = "method" ∧
        v ≠ .null ∧ ∀ m, v ≠ .string m) →
      ∃ err, Decode r.Body = .error err) := by
  constructor
  · intro err hdec
    have h := handle_decode_error impl (ResponseWriter.fresh hdr) r s err hdec
    refine ⟨by rw [h], ?_, by rw [h]; rfl, ?_⟩
    · intro impl'
      rw [h, handle_decode_error impl' (ResponseWriter.fresh hdr) r s err hdec]
    · rw [h]
      exact ⟨_, JSON_written_fresh _ _ _, rfl, by simp [Object.has, Object.get],
        by simp [Object.has, Object.get]⟩
  · rintro (⟨msg, hb⟩ | ⟨v, hb, hnull, hobj⟩ | ⟨kvs, k, v, hb, hmem, hk, hnull, hstr⟩)
    · exact ⟨msg, by rw [hb]; rfl⟩
    · rw [hb]
      cases v with
      | null => exact absurd rfl hnull
      | object kvs => exact absurd rfl (hobj kvs)
      | bool b => exact ⟨_, rfl⟩
      | number n => exact ⟨_, rfl⟩
      | string m => exact ⟨_, rfl⟩
      | array xs => exact ⟨_, rfl⟩
    · rw [hb]
      have hsome := foldl_storeField_bad_method kvs (Call.zero, none) k v hmem hk hnull hstr
      simp only [Decode, unmarshal]
      rcases hres : kvs.foldl storeField (Call.zero, none) with ⟨call, _ | e⟩
      · rw [hres] at hsome
        simp at hsome
      · exact ⟨e, rfl⟩

/-- C10 as amended, at the empty body, on which the decoder reports `EOF`. -/
theorem handle_decode_failure_witness :
    ((R.handle ⟨logRouter⟩) (ResponseWriter.fresh [])
      { Method := "POST", Path := "/", Header := [], Body := .invalid "EOF" } []).2 = [] ∧
    ((R.handle ⟨logRouter⟩) (ResponseWriter.fresh [])
      { Method := "POST", Path := "/", Header := [], Body := .invalid "EOF" } []).1.status
      = some 400 ∧
    ((R.handle ⟨logRouter⟩) (ResponseWriter.fresh [])
      { Method := "POST", Path := "/", Header := [], Body := .invalid "EOF" } []).1.written
      = [[("error", .string "EOF")]] :=
  have h := (handle_decode_failure ⟨logRouter⟩ []
    { Method := "POST", Path := "/", Header := [], Body := .invalid "EOF" } []).1 "EOF" rfl
  ⟨h.1, h.2.2.1, by
    obtain ⟨body, hw, hb, -⟩ := h.2.2.2
    rw [hw, hb]⟩

end Kraken
